import Mathlib

/-!
Verification of the VocalTune job-pipeline orchestrator.

Shallow embedding of the status-store and pipeline code:
- `src/backend-api/job_store.py` (the in-memory job status store),
- `src/backend-api/main.py` (download / local separation pipelines, the
  status-polling endpoint, the URL validator, the progress-line parsing),
- `src/backend-api/karaoke.py` (the karaoke pipeline and its stage-progress
  mapping),
- `src/ai-worker/tasks.py` (the Celery worker pipelines).

Pipelines are modelled as functions from their externally determined inputs
(process exit codes, parsed output lines, the files the external tools left
on disk) to the sequence of status records they write to the job status
store.  Machine-level details that the claims do not touch (actual file
contents, the network, logging) are not modelled; the float expression
`int(d_prog * 0.55)` of karaoke.py is embedded as `(11 * d) / 20` on `Nat`,
which coincides with the Python value for every `d < 1000` (the parser below
never yields more than three digits).
-/

set_option maxHeartbeats 1000000

namespace VocalTune

/-! ### Values and records of the job status store (job_store.py) -/

/-- A value stored in one field of a job-status record: a string, an
integer, or a string-to-string map (the `tracks` payload). -/
inductive Val where
  | vs : String → Val
  | vn : Nat → Val
  | vmap : List (String × String) → Val
deriving DecidableEq

/-- A job-status record: a Python dict, embedded as an association list in
insertion order (keys are unique in every record the code builds). -/
abbrev Record := List (String × Val)

/-- Dict item assignment `r[k] = v`: replace the value at an existing key,
else append the new pair at the end (Python dicts keep insertion order). -/
def recSet (r : Record) (k : String) (v : Val) : Record :=
  match r with
  | [] => [(k, v)]
  | (k0, v0) :: rest => if k0 = k then (k, v) :: rest else (k0, v0) :: recSet rest k v

/-- Dict lookup `r.get(k)`. -/
def recGet (r : Record) (k : String) : Option Val :=
  match r with
  | [] => none
  | (k0, v) :: rest => if k0 = k then some v else recGet rest k

/-- `r.update(d)` of Python dicts: merge the fields of `d` into `r`,
left to right, overriding on key clashes and keeping all other fields. -/
def recUpdate (r : Record) (d : Record) : Record :=
  d.foldl (fun acc kv => recSet acc kv.1 kv.2) r

/-- The global `job_status_store` mapping, job id to record. -/
abbrev Store := String → Option Record

def emptyStore : Store := fun _ => none

/-- `update_job_status(job_id, diff)` of job_store.py: create an empty
record when the id is absent, then merge `diff` into the record. -/
def update_job_status (s : Store) (jobId : String) (diff : Record) : Store :=
  let base := match s jobId with
    | some r => r
    | none => []
  fun k => if k = jobId then some (recUpdate base diff) else s k

/-- `get_job_status(job_id)` of job_store.py: the stored record, or the
`{"status": "unknown"}` sentinel when the id is absent. -/
def get_job_status (s : Store) (jobId : String) : Record :=
  match s jobId with
  | some r => r
  | none => [("status", Val.vs "unknown")]

/-- The record a missing job id reads back as. -/
def unknownSentinel : Record := [("status", Val.vs "unknown")]

/-- `GET /api/status/{job_id}` (main.py `get_status`): read the store and
raise `HTTPException(404)` when the record's status is `"unknown"`;
otherwise answer 200 with a response assembled from the record's fields. -/
def get_status (s : Store) (jobId : String) : Except Nat Record :=
  let st := get_job_status s jobId
  if recGet st "status" = some (Val.vs "unknown") then Except.error 404
  else Except.ok st

/-! ### Store lemmas -/

theorem recGet_recSet_self (r : Record) (k : String) (v : Val) :
    recGet (recSet r k v) k = some v := by
  induction r with
  | nil => simp [recSet, recGet]
  | cons kv rest ih =>
    obtain ⟨k0, v0⟩ := kv
    by_cases h : k0 = k
    · simp [recSet, recGet, h]
    · simp [recSet, recGet, h, ih]

theorem recGet_recSet_ne (r : Record) (k k' : String) (v : Val) (h : k' ≠ k) :
    recGet (recSet r k v) k' = recGet r k' := by
  induction r with
  | nil => simp [recSet, recGet, Ne.symm h]
  | cons kv rest ih =>
    obtain ⟨k0, v0⟩ := kv
    by_cases h0 : k0 = k
    · subst h0
      simp [recSet, recGet, Ne.symm h]
    · simp [recSet, recGet, h0, ih]

/-- The record stored at `jobId`, or the empty dict the update starts from. -/
def storedOrEmpty (s : Store) (jobId : String) : Record :=
  match s jobId with
  | some r => r
  | none => []

theorem update_job_status_self (s : Store) (jobId : String) (diff : Record) :
    update_job_status s jobId diff jobId
      = some (recUpdate (storedOrEmpty s jobId) diff) := by
  simp [update_job_status, storedOrEmpty]

theorem get_after_update (s : Store) (jobId : String) (diff : Record) :
    get_job_status (update_job_status s jobId diff) jobId
      = recUpdate (storedOrEmpty s jobId) diff := by
  simp [get_job_status, update_job_status, storedOrEmpty]

/-- C9: `update_job_status` is total: for every store, id and diff it stores
the merge of the previous record (an empty dict for an absent id) with the
diff, so the following `get_job_status` lookup succeeds and returns that
merged record — the `NotFound` default branch (the `{"status": "unknown"}`
sentinel) is never taken after a `Set` of the same id. -/
theorem c9_update_total_get_never_default :
    ∀ (s : Store) (jobId : String) (diff : Record),
      update_job_status s jobId diff jobId
          = some (recUpdate (storedOrEmpty s jobId) diff) ∧
      get_job_status (update_job_status s jobId diff) jobId
          = recUpdate (storedOrEmpty s jobId) diff := by
  intro s jobId diff
  exact ⟨update_job_status_self s jobId diff, get_after_update s jobId diff⟩

/-- C3: merge semantics of the store: from any starting store, setting
`{progress: 10}` and then `{message: "x"}` on the same id leaves a record
that still holds both fields. -/
theorem c3_set_merges_not_replaces :
    ∀ (s : Store) (jobId : String),
      recGet (get_job_status
          (update_job_status (update_job_status s jobId [("progress", Val.vn 10)])
            jobId [("message", Val.vs "x")]) jobId) "progress" = some (Val.vn 10) ∧
      recGet (get_job_status
          (update_job_status (update_job_status s jobId [("progress", Val.vn 10)])
            jobId [("message", Val.vs "x")]) jobId) "message" = some (Val.vs "x") := by
  intro s jobId
  rw [get_after_update _ jobId [("message", Val.vs "x")]]
  have hb : storedOrEmpty (update_job_status s jobId [("progress", Val.vn 10)]) jobId
      = recUpdate (storedOrEmpty s jobId) [("progress", Val.vn 10)] := by
    simp [storedOrEmpty, update_job_status]
  rw [hb]
  simp only [recUpdate, List.foldl]
  constructor
  · rw [recGet_recSet_ne _ _ _ _ (by decide), recGet_recSet_self]
  · rw [recGet_recSet_self]

/-- C6 counterexample: polling a job id that is not in the store is
surfaced as an HTTP 404 error by the status endpoint, not as a normal
`status = "unknown"` record. -/
theorem c6_counterexample_unknown_is_404 :
    get_status emptyStore "no-such-job" = Except.error 404 := by
  rfl

/-- C6 amended: for an absent job id the store-level `get_job_status`
itself returns the `{"status": "unknown"}` sentinel without failing, but
the `/api/status` endpoint converts exactly that sentinel into an
HTTP 404 error. -/
theorem c6_amended_unknown_sentinel_then_404 :
    ∀ (s : Store) (jobId : String), s jobId = none →
      get_job_status s jobId = unknownSentinel ∧
      get_status s jobId = Except.error 404 := by
  intro s jobId h
  constructor
  · simp [get_job_status, h, unknownSentinel]
  · simp [get_status, get_job_status, h, recGet]

/-- Witness for C6 amended at a concrete store and id. -/
theorem c6_amended_witness :
    get_job_status emptyStore "j1" = unknownSentinel ∧
    get_status emptyStore "j1" = Except.error 404 :=
  c6_amended_unknown_sentinel_then_404 emptyStore "j1" rfl

/-! ### Stage-progress mapping (karaoke.py line 234)

The code maps a parsed Demucs percentage `d` into the overall band
[30, 85] by `overall_prog = 30 + int(d_prog * 0.55)`.  Python `int()`
truncates toward zero; for every `d < 1000` (the parser below yields at
most three digits) the double-precision value `int(d * 0.55)` equals
`(11 * d) / 20` in natural-number division, so the embedding is exact. -/

/-- `overall_prog = 30 + int(d_prog * 0.55)` of karaoke.py. -/
def overall_prog (d : Nat) : Nat := 30 + 11 * d / 20

/-- Modelled from the spec's words, for comparison with the code:
`overallPercent = bandStart + round(stagePercent * (bandEnd - bandStart) / 100)`
with `round` as round-half-up on the exact rational value. -/
def stageProgressMapperSpec (p bandStart bandEnd : Nat) : Nat :=
  bandStart + (p * (bandEnd - bandStart) + 50) / 100

/-- C4 counterexample: at `stagePercent = 1` on the code's band [30, 85],
the code truncates (`30 + int(0.55) = 30`) while the spec formula rounds
(`30 + round(0.55) = 31`): the implemented mapping is not the claimed
rounding formula. -/
theorem c4_counterexample_truncation_not_rounding :
    overall_prog 1 = 30 ∧ stageProgressMapperSpec 1 30 85 = 31 ∧
    overall_prog 1 ≠ stageProgressMapperSpec 1 30 85 := by
  decide

/-- C4 amended: the implemented mapping is
`overallPercent = bandStart + floor(stagePercent * (bandEnd - bandStart) / 100)`
(truncation instead of rounding) on the code's one band [30, 85]; it is
monotonic in the stage percentage and maps 0 to the band start and 100 to
the band end. -/
theorem c4_amended_floor_monotone_endpoints :
    (∀ p q : Nat, p ≤ q → overall_prog p ≤ overall_prog q) ∧
    overall_prog 0 = 30 ∧ overall_prog 100 = 85 := by
  refine ⟨fun p q h => ?_, by decide, by decide⟩
  have : 11 * p ≤ 11 * q := Nat.mul_le_mul_left 11 h
  exact Nat.add_le_add_left (Nat.div_le_div_right this) 30

/-- Witness for C4 amended: monotonicity applied at 40 ≤ 80. -/
theorem c4_amended_witness :
    overall_prog 40 ≤ overall_prog 80 :=
  c4_amended_floor_monotone_endpoints.1 40 80 (by decide)

/-! ### Progress-line parsing (main.py `read_stream`, karaoke.py demucs loop)

Both copies run, per logical line (already split on newline / carriage
return): `line = line.strip()`; skip empty lines; if `"%" in line and
"|" in line` then `percent_str = line.split('%')[0].strip()`,
`percent = percent_str[-3:].strip()`, and if `percent.isdigit()` the
progress value is `int(percent)`; any other line is ignored.  Lines are
embedded as `List Char`; `isdigit`/`int` cover the ASCII digits the tools
emit. -/

/-- Python `str.strip()` whitespace predicate (ASCII whitespace). -/
def pyIsSpace (c : Char) : Bool :=
  c = ' ' || c = '\t' || c = '\n' || c = '\x0d' || c = '\x0b' || c = '\x0c'

/-- Python `str.strip()`: drop leading and trailing whitespace. -/
def pyStrip (l : List Char) : List Char :=
  ((l.dropWhile pyIsSpace).reverse.dropWhile pyIsSpace).reverse

/-- ASCII decimal digit test (Python `str.isdigit` on tool output). -/
def pyIsDigit (c : Char) : Bool := 48 ≤ c.toNat && c.toNat ≤ 57

/-- Decimal value of a digit string (Python `int`). -/
def digitsToNat (l : List Char) : Nat :=
  l.foldl (fun a c => 10 * a + (c.toNat - 48)) 0

/-- Python `s[-3:]`: the last (at most) three characters. -/
def lastThree (l : List Char) : List Char := l.drop (l.length - 3)

/-- The progress-line heuristic shared by `main.read_stream` and the
karaoke Demucs loop: returns the parsed percentage of a progress line and
`none` for every other line. -/
def parse_progress_line (line : List Char) : Option Nat :=
  let l := pyStrip line
  if l = [] then none
  else if l.contains '%' && l.contains '|' then
    let beforePct := l.takeWhile (fun c => c != '%')
    let percent := pyStrip (lastThree (pyStrip beforePct))
    if percent ≠ [] && percent.all pyIsDigit then some (digitsToNat percent)
    else none
  else none

/-- Modelled from the claim's words, for comparison with the code: the
value of a progress line is "the integer immediately preceding the `%`
character", i.e. the maximal digit run ending right before the first `%`. -/
def claimedProgressValue (line : List Char) : Option Nat :=
  let l := pyStrip line
  if l.contains '%' && l.contains '|' then
    let beforePct := l.takeWhile (fun c => c != '%')
    let run := (beforePct.reverse.takeWhile pyIsDigit).reverse
    if run ≠ [] then some (digitsToNat run) else none
  else none

theorem mem_of_mem_pyStrip {c : Char} {l : List Char} (h : c ∈ pyStrip l) :
    c ∈ l := by
  unfold pyStrip at h
  rw [List.mem_reverse] at h
  have h1 : c ∈ (l.dropWhile pyIsSpace).reverse :=
    List.Sublist.mem h (List.dropWhile_sublist _)
  rw [List.mem_reverse] at h1
  exact List.Sublist.mem h1 (List.dropWhile_sublist _)

theorem pyStrip_length_le (l : List Char) : (pyStrip l).length ≤ l.length := by
  have h1 := (List.dropWhile_sublist
    (l := (l.dropWhile pyIsSpace).reverse) pyIsSpace).length_le
  have h2 := (List.dropWhile_sublist (l := l) pyIsSpace).length_le
  simp only [List.length_reverse] at h1
  simp only [pyStrip, List.length_reverse]
  omega

theorem foldl_digits_lt (l : List Char) (hl : ∀ c ∈ l, pyIsDigit c = true) :
    ∀ a : Nat,
      l.foldl (fun a c => 10 * a + (c.toNat - 48)) a < (a + 1) * 10 ^ l.length := by
  induction l with
  | nil => intro a; simp
  | cons c t ih =>
    intro a
    have hc : c.toNat - 48 ≤ 9 := by
      have hd := hl c (List.mem_cons_self c t)
      simp only [pyIsDigit, Bool.and_eq_true, decide_eq_true_eq] at hd
      omega
    have ht : ∀ x ∈ t, pyIsDigit x = true :=
      fun x hx => hl x (List.mem_cons_of_mem c hx)
    have h1 := ih ht (10 * a + (c.toNat - 48))
    have h2 : (10 * a + (c.toNat - 48) + 1) * 10 ^ t.length
        ≤ ((a + 1) * 10) * 10 ^ t.length := by
      have : 10 * a + (c.toNat - 48) + 1 ≤ (a + 1) * 10 := by omega
      exact Nat.mul_le_mul_right _ this
    calc List.foldl (fun a c => 10 * a + (c.toNat - 48)) a (c :: t)
        = List.foldl (fun a c => 10 * a + (c.toNat - 48))
            (10 * a + (c.toNat - 48)) t := rfl
      _ < (10 * a + (c.toNat - 48) + 1) * 10 ^ t.length := h1
      _ ≤ ((a + 1) * 10) * 10 ^ t.length := h2
      _ = (a + 1) * 10 ^ (c :: t).length := by
          simp [List.length_cons, Nat.pow_succ]; ring

theorem digitsToNat_le_999 (l : List Char) (h3 : l.length ≤ 3)
    (hd : ∀ c ∈ l, pyIsDigit c = true) : digitsToNat l ≤ 999 := by
  have h := foldl_digits_lt l hd 0
  have hp : 10 ^ l.length ≤ 1000 := by
    calc 10 ^ l.length ≤ 10 ^ 3 := Nat.pow_le_pow_right (by omega) h3
      _ = 1000 := by norm_num
  simp only [Nat.zero_add, Nat.one_mul] at h
  unfold digitsToNat
  omega

/-- C5 counterexample: a line containing `%` and `|` whose `%` is
immediately preceded by the integer 1234 is parsed to 234, because the
code keeps only the last three characters before the first `%` — the
parsed value is not "the integer immediately preceding the `%`". -/
theorem c5_counterexample_last_three_digits :
    parse_progress_line ("1234%| 10/20".toList) = some 234 ∧
    claimedProgressValue ("1234%| 10/20".toList) = some 1234 ∧
    (234 : Nat) ≠ 1234 := by
  decide

/-- C5 amended: the parser's two exemplar behaviours hold
(`"  45%|████      | 10/20"` parses to 45, `"not a progress line"` yields
no match, and the parser is a total function, so a malformed line never
fails the stage); in general a line only ever parses when it contains
both `%` and `|`, and the extracted value is the decimal value of the
last at-most-three characters before the first `%` (hence at most 999) —
not always the full integer preceding the `%`. -/
theorem c5_amended_parser_heuristic :
    parse_progress_line ("  45%|████      | 10/20".toList) = some 45 ∧
    parse_progress_line ("not a progress line".toList) = none ∧
    (∀ (line : List Char) (n : Nat), parse_progress_line line = some n →
      '%' ∈ line ∧ '|' ∈ line ∧ n ≤ 999) := by
  refine ⟨by decide, by decide, ?_⟩
  intro line n h
  simp only [parse_progress_line] at h
  split at h
  · exact absurd h (by simp)
  · split at h
    · next hcond =>
      rw [Bool.and_eq_true] at hcond
      have hpct : '%' ∈ pyStrip line := List.elem_iff.mp hcond.1
      have hbar : '|' ∈ pyStrip line := List.elem_iff.mp hcond.2
      refine ⟨mem_of_mem_pyStrip hpct, mem_of_mem_pyStrip hbar, ?_⟩
      split at h
      · next hdig =>
        rw [Bool.and_eq_true] at hdig
        have hn : digitsToNat (pyStrip (lastThree
            (pyStrip ((pyStrip line).takeWhile (fun c => c != '%'))))) = n := by
          simpa using h
        have hlen : (pyStrip (lastThree
            (pyStrip ((pyStrip line).takeWhile (fun c => c != '%'))))).length ≤ 3 := by
          have h1 := pyStrip_length_le (lastThree
            (pyStrip ((pyStrip line).takeWhile (fun c => c != '%'))))
          have h2 : (lastThree
              (pyStrip ((pyStrip line).takeWhile (fun c => c != '%')))).length ≤ 3 := by
            simp only [lastThree, List.length_drop]
            omega
          omega
        have hall : ∀ c ∈ pyStrip (lastThree
            (pyStrip ((pyStrip line).takeWhile (fun c => c != '%')))),
            pyIsDigit c = true := by
          have := hdig.2
          rw [List.all_eq_true] at this
          exact fun c hc => this c hc
        rw [← hn]
        exact digitsToNat_le_999 _ hlen hall
      · exact absurd h (by simp)
    · exact absurd h (by simp)

/-- Witness for C5 amended: its universal part applied at the exemplar
progress line. -/
theorem c5_amended_witness :
    '%' ∈ ("  45%|████      | 10/20".toList) ∧
    '|' ∈ ("  45%|████      | 10/20".toList) ∧ (45 : Nat) ≤ 999 :=
  c5_amended_parser_heuristic.2.2 ("  45%|████      | 10/20".toList) 45 (by decide)

/-! ### YouTube URL validation and job creation (main.py) -/

/-- The four accepted URL fragments of `validate_youtube_url`. -/
def validPatterns : List (List Char) :=
  ["youtube.com/watch".toList, "youtu.be/".toList,
   "youtube.com/shorts/".toList, "youtube.com/embed/".toList]

/-- Boolean test that `s` starts with `p`. -/
def startsWithL : List Char → List Char → Bool
  | [], _ => true
  | _ :: _, [] => false
  | c :: p, d :: s => c == d && startsWithL p s

/-- Python's substring containment `p in s`. -/
def containsSub (p s : List Char) : Bool :=
  startsWithL p s ||
    match s with
    | [] => false
    | _ :: t => containsSub p t

/-- `validate_youtube_url` of main.py: any of the four fragments occurring
anywhere in the string. -/
def validate_youtube_url (url : List Char) : Bool :=
  validPatterns.any (fun p => containsSub p url)

theorem startsWithL_iff (p : List Char) : ∀ s : List Char,
    startsWithL p s = true ↔ ∃ t, s = p ++ t := by
  induction p with
  | nil =>
    intro s
    simp only [startsWithL, List.nil_append]
    exact ⟨fun _ => ⟨s, rfl⟩, fun _ => trivial⟩
  | cons c p ih =>
    intro s
    cases s with
    | nil =>
      simp [startsWithL]
    | cons d s =>
      simp only [startsWithL, Bool.and_eq_true, beq_iff_eq, ih]
      constructor
      · rintro ⟨rfl, t, rfl⟩
        exact ⟨t, rfl⟩
      · rintro ⟨t, he⟩
        rw [List.cons_append] at he
        injection he with h1 h2
        exact ⟨h1.symm, t, h2⟩

theorem containsSub_iff (p : List Char) : ∀ s : List Char,
    containsSub p s = true ↔ ∃ a b, s = a ++ p ++ b := by
  intro s
  induction s with
  | nil =>
    constructor
    · intro h
      have h' : startsWithL p [] = true := by
        unfold containsSub at h
        simpa using h
      obtain ⟨t, ht⟩ := (startsWithL_iff p []).mp h'
      obtain ⟨hp, -⟩ := List.append_eq_nil.mp ht.symm
      exact ⟨[], [], by simp [hp]⟩
    · rintro ⟨a, b, hab⟩
      obtain ⟨hap, hb⟩ := List.append_eq_nil.mp hab.symm
      obtain ⟨ha, hp⟩ := List.append_eq_nil.mp hap
      have h' : startsWithL p [] = true :=
        (startsWithL_iff p []).mpr ⟨[], by simp [hp]⟩
      unfold containsSub
      simp [h']
  | cons d s ih =>
    simp only [containsSub, Bool.or_eq_true, startsWithL_iff, ih]
    constructor
    · rintro (⟨t, ht⟩ | ⟨a, b, hab⟩)
      · exact ⟨[], t, by simpa using ht⟩
      · exact ⟨d :: a, b, by simp [hab]⟩
    · rintro ⟨a, b, hab⟩
      cases a with
      | nil => exact Or.inl ⟨b, by simpa using hab⟩
      | cons x a =>
        rw [List.cons_append, List.cons_append] at hab
        injection hab with h1 h2
        exact Or.inr ⟨a, b, h2⟩

/-- The initial record `download_youtube` writes for a fresh job. -/
def pendingDownloadRecord : Record :=
  [("status", Val.vs "pending"), ("progress", Val.vn 0),
   ("message", Val.vs "任務已建立...")]

/-- `POST /api/download` (main.py `download_youtube`): reject a URL the
validator refuses with HTTP 400 before any job exists; otherwise allocate
the fresh job id, write the initial pending record, and schedule the
background download. -/
def download_youtube (s : Store) (url : List Char) (freshId : String) :
    Except Nat (Store × String) :=
  if validate_youtube_url url then
    Except.ok (update_job_status s freshId pendingDownloadRecord, freshId)
  else Except.error 400

/-- C10: the validator accepts a string iff one of the four fragments
occurs as a substring anywhere in it; in particular a URL of a different
host that merely embeds such a fragment in a query parameter is accepted,
and the download endpoint creates a job (writes the pending record under
the fresh id) for every accepted string. -/
theorem c10_validator_substring_semantics :
    (∀ url : List Char, validate_youtube_url url = true ↔
      ∃ p ∈ validPatterns, ∃ a b, url = a ++ p ++ b) ∧
    validate_youtube_url
      ("https://evil.example.com/page?u=youtube.com/watch?v=x".toList) = true ∧
    (∀ (s : Store) (url : List Char) (freshId : String),
      validate_youtube_url url = true → s freshId = none →
      download_youtube s url freshId
          = Except.ok (update_job_status s freshId pendingDownloadRecord, freshId) ∧
      update_job_status s freshId pendingDownloadRecord freshId
          = some pendingDownloadRecord) := by
  refine ⟨?_, by decide, ?_⟩
  · intro url
    simp only [validate_youtube_url, List.any_eq_true, containsSub_iff]
  · intro s url freshId hv hfresh
    constructor
    · simp [download_youtube, hv]
    · have hso : storedOrEmpty s freshId = [] := by simp [storedOrEmpty, hfresh]
      rw [update_job_status_self, hso]
      rfl

/-- Witness for C10 at a concrete store, URL and id. -/
theorem c10_witness :
    download_youtube emptyStore ("https://youtu.be/abc".toList) "j2"
        = Except.ok (update_job_status emptyStore "j2" pendingDownloadRecord, "j2") ∧
    update_job_status emptyStore "j2" pendingDownloadRecord "j2"
        = some pendingDownloadRecord :=
  c10_validator_substring_semantics.2.2 emptyStore ("https://youtu.be/abc".toList)
    "j2" (by decide) rfl

/-! ### Status-write traces of the pipelines

Each pipeline is embedded as a function from the externally determined
facts of one execution (process exit codes and output, which files the
external tools left behind) to the ordered sequence of status records the
pipeline writes to the job status store.  One record per
`update_job_status` / `update_status` call, in program order. -/

/-- The status strings the pipelines write. -/
inductive StatusE where
  | pending
  | downloading
  | separating
  | uploading
  | processing
  | transcribing
  | completed
  | error
deriving DecidableEq

/-- The fields of one status-store update: the literal dict the code
passes to `update_job_status` / `update_status`.  `tracks` also carries
the string-valued result fields (`file_url`, ...) of completion writes. -/
structure StatusWrite where
  status : StatusE
  progress : Option Nat := none
  message : String := ""
  tracks : Option (List (String × String)) := none
  errMsg : Option String := none
deriving DecidableEq

/-- A terminal status: `completed` or `error`. -/
def isTerminalW (w : StatusWrite) : Bool :=
  match w.status with
  | .completed => true
  | .error => true
  | _ => false

/-- Boolean check that a trace consists of non-terminal writes followed by
exactly one final terminal write. -/
def endsTerminalOnceB : List StatusWrite → Bool
  | [] => false
  | [w] => isTerminalW w
  | w :: w2 :: t => !isTerminalW w && endsTerminalOnceB (w2 :: t)

/-- A trace writes exactly one terminal status, as its very last write:
nothing is ever written after it. -/
def endsTerminalOnce (t : List StatusWrite) : Prop :=
  ∃ pre last, t = pre ++ [last] ∧ isTerminalW last = true ∧
    ∀ w ∈ pre, isTerminalW w = false

theorem endsTerminalOnce_iff (t : List StatusWrite) :
    endsTerminalOnce t ↔ endsTerminalOnceB t = true := by
  induction t with
  | nil =>
    constructor
    · rintro ⟨pre, last, he, -, -⟩
      exact absurd he (by simp)
    · intro h
      exact absurd h (by simp [endsTerminalOnceB])
  | cons w t ih =>
    cases t with
    | nil =>
      constructor
      · rintro ⟨pre, last, he, hterm, hpre⟩
        cases pre with
        | nil =>
          simp only [List.nil_append, List.cons.injEq] at he
          obtain ⟨rfl, -⟩ := he
          exact hterm
        | cons x xs => simp at he
      · intro h
        exact ⟨[], w, rfl, h, by simp⟩
    | cons w2 t2 =>
      constructor
      · rintro ⟨pre, last, he, hterm, hpre⟩
        cases pre with
        | nil => simp at he
        | cons x xs =>
          rw [List.cons_append] at he
          injection he with h1 h2
          subst h1
          have hx : endsTerminalOnce (w2 :: t2) :=
            ⟨xs, last, h2, hterm, fun y hy => hpre y (List.mem_cons_of_mem _ hy)⟩
          have hb := ih.mp hx
          have hw : isTerminalW w = false := hpre w (List.mem_cons_self _ _)
          show (!isTerminalW w && endsTerminalOnceB (w2 :: t2)) = true
          rw [hw, hb]
          rfl
      · intro h
        have h' : (!isTerminalW w && endsTerminalOnceB (w2 :: t2)) = true := h
        rw [Bool.and_eq_true] at h'
        obtain ⟨hw, hb⟩ := h'
        obtain ⟨pre, last, he, hterm, hpre⟩ := ih.mpr hb
        refine ⟨w :: pre, last, by simp [he], hterm, ?_⟩
        intro y hy
        rcases List.mem_cons.mp hy with h1 | h2
        · subst h1
          simpa using hw
        · exact hpre y h2

theorem endsTerminalOnceB_cons (w : StatusWrite) (t : List StatusWrite)
    (hw : isTerminalW w = false) (ht : endsTerminalOnceB t = true) :
    endsTerminalOnceB (w :: t) = true := by
  cases t with
  | nil => exact absurd ht (by simp [endsTerminalOnceB])
  | cons w2 t2 =>
    show (!isTerminalW w && endsTerminalOnceB (w2 :: t2)) = true
    rw [hw, ht]
    rfl

theorem endsTerminalOnceB_append (l1 l2 : List StatusWrite)
    (h1 : ∀ w ∈ l1, isTerminalW w = false) (h2 : endsTerminalOnceB l2 = true) :
    endsTerminalOnceB (l1 ++ l2) = true := by
  induction l1 with
  | nil => simpa using h2
  | cons w t ih =>
    rw [List.cons_append]
    exact endsTerminalOnceB_cons w (t ++ l2) (h1 w (List.mem_cons_self _ _))
      (ih (fun y hy => h1 y (List.mem_cons_of_mem _ hy)))

/-- Boolean check that a list of numbers is non-decreasing. -/
def nonDecB : List Nat → Bool
  | [] => true
  | [_] => true
  | a :: b :: t => decide (a ≤ b) && nonDecB (b :: t)

/-- The progress values carried by the writes of a trace, in order. -/
def progressList (t : List StatusWrite) : List Nat :=
  t.filterMap (fun w => w.progress)

/-- The progress values written strictly before the first terminal write
form a non-decreasing sequence. -/
def nonDecreasingUntilTerminal (t : List StatusWrite) : Prop :=
  nonDecB (progressList (t.takeWhile (fun w => !isTerminalW w))) = true

/-- Outcome of one blocking `subprocess.run` call: a normal exit carrying
the return code and the captured diagnostic output, or
`subprocess.TimeoutExpired`. -/
inductive ProcOutcome where
  | exited : Int → String → ProcOutcome
  | timedOut : ProcOutcome
deriving DecidableEq

/-! #### `tasks.separate_music` (ai-worker/tasks.py) -/

/-- Externally determined inputs of one `separate_music` execution. -/
structure SMIn where
  /-- first yt-dlp run (no browser cookies), `timeout=300` -/
  dl1 : ProcOutcome
  /-- second yt-dlp run (with browser cookies), `timeout=300`; only run
  when the first exits non-zero -/
  dl2 : ProcOutcome
  /-- names of the `*.mp3` glob hits in the temp dir, in glob order -/
  mp3Files : List String
  /-- names of the `audio.*` glob hits, consulted when no mp3 exists -/
  audioFiles : List String
  /-- the Demucs run (`htdemucs_6s`, six stems), `timeout=600` -/
  demucs : ProcOutcome
  /-- directories under `output_dir` after separation, as component lists
  relative to `output_dir` -/
  dirs : List (List String)
  /-- files under `output_dir`: (directory, filename) pairs, glob order -/
  files : List (List String × String)
  jobId : String

/-- The effective download outcome: the cookie-carrying retry runs only
after a non-zero exit of the first attempt (a `TimeoutExpired` of the
first attempt propagates, so it is not retried). -/
def dlResult (first second : ProcOutcome) : ProcOutcome :=
  match first with
  | .timedOut => .timedOut
  | .exited rc err => if rc = 0 then .exited rc err else second

/-- The audio file the worker locates after the download: the first
`*.mp3` hit, else the first `audio.*` hit. -/
def audioFileName (i : SMIn) : Option String :=
  match i.mp3Files with
  | n :: _ => some n
  | [] =>
    match i.audioFiles with
    | n :: _ => some n
    | [] => none

/-- `pathlib.Path(...).stem`: the filename without its final suffix. -/
def stemOf (n : String) : String :=
  if n.toList.contains '.' then
    ⟨((n.toList.reverse.dropWhile (fun c => c != '.')).drop 1).reverse⟩
  else n

/-- tasks.py stem-directory resolution (lines 205-213): the declared
`htdemucs_6s/<audio stem>` directory when it exists, else exactly one
fallback recursive search: the parent of the first `**/vocals.wav` hit. -/
def resolveStemDir (i : SMIn) (audioStem : String) : Option (List String) :=
  if ["htdemucs_6s", audioStem] ∈ i.dirs then some ["htdemucs_6s", audioStem]
  else
    match (i.files.filter (fun e => e.2 == "vocals.wav")).head? with
    | some e => some e.1
    | none => none

/-- The signed URL `upload_to_gcs` answers for one GCS object path. -/
def gcsUrl (gcsPath : String) : String := "signed:" ++ gcsPath

/-- The six stem names of the `htdemucs_6s` model. -/
def stemNames : List String := ["vocals", "drums", "bass", "guitar", "piano", "other"]

/-- GCS object path of one uploaded stem. -/
def smStemUrl (i : SMIn) (s : String) : String :=
  "jobs/" ++ i.jobId ++ "/" ++ s ++ ".wav"

/-- The tracks payload `separate_music` assembles from the resolved stem
directory `d`: every present named stem, the two-stem `no_vocals.wav`
fallback when no drums stem was found, and always the original audio. -/
def smTracks (i : SMIn) (d : List String) : List (String × String) :=
  let base := stemNames.filterMap (fun s =>
    if (d, s ++ ".wav") ∈ i.files then some (s, gcsUrl (smStemUrl i s))
    else none)
  let withAcc :=
    if (d, "no_vocals.wav") ∈ i.files ∧ base.lookup "drums" = none then
      base ++ [("accompaniment", gcsUrl ("jobs/" ++ i.jobId ++ "/accompaniment.wav"))]
    else base
  withAcc ++ [("original", gcsUrl ("jobs/" ++ i.jobId ++ "/original.mp3"))]

def smDownloadingW : StatusWrite :=
  { status := .downloading, progress := some 10, message := "正在下載音訊..." }

def smSeparatingW : StatusWrite :=
  { status := .separating, progress := some 30,
    message := "AI 正在分離音軌，這可能需要幾分鐘..." }

def smUploadingW : StatusWrite :=
  { status := .uploading, progress := some 80, message := "正在上傳處理後的音軌..." }

def smCompletedW (i : SMIn) (d : List String) : StatusWrite :=
  { status := .completed, progress := some 100, message := "分離完成！",
    tracks := some (smTracks i d) }

/-- The single terminal write of the worker's `except` clause: status
`error`, progress 0, the exception text in `message` and `error`. -/
def smErrorW (e : String) : StatusWrite :=
  { status := .error, progress := some 0, message := "處理失敗: " ++ e,
    errMsg := some e }

/-- `separate_music` of tasks.py as the ordered sequence of status records
it writes to the job status store (uploads are modelled as pure). -/
def separate_music (i : SMIn) : List StatusWrite :=
  smDownloadingW :: (
    match dlResult i.dl1 i.dl2 with
    | .timedOut => [smErrorW "subprocess.TimeoutExpired"]
    | .exited rc err =>
      if rc ≠ 0 then [smErrorW ("下載失敗: " ++ err)]
      else
        match audioFileName i with
        | none => [smErrorW "找不到下載的音訊檔案"]
        | some aname =>
          smSeparatingW :: (
            match i.demucs with
            | .timedOut => [smErrorW "subprocess.TimeoutExpired"]
            | .exited rc2 err2 =>
              if rc2 ≠ 0 then [smErrorW ("分離失敗: " ++ err2)]
              else
                smUploadingW :: (
                  match resolveStemDir i (stemOf aname) with
                  | none => [smErrorW "找不到分離後的檔案"]
                  | some d => [smCompletedW i d])))

/-! #### `main.separate_audio_local` (backend-api/main.py) -/

/-- Externally determined inputs of one `separate_audio_local` execution.
The Demucs subprocess here is started with `asyncio` and has no timeout. -/
structure SALIn where
  /-- the logical output lines of the Demucs process, both streams -/
  demucsLines : List (List Char)
  demucsRc : Int
  /-- directories under this job's separation output dir -/
  dirs : List (List String)
  /-- files under the output dir: (directory, filename), `rglob` order -/
  files : List (List String × String)
  /-- `Path(audio_path).stem` of the input audio -/
  audioStem : String
  jobId : String

def salLoadW : StatusWrite :=
  { status := .separating, progress := some 10, message := "正在載入 AI 模型..." }

def salStartW : StatusWrite :=
  { status := .separating, progress := some 0, message := "正在啟動 AI 分離引擎..." }

def salProcessingW : StatusWrite :=
  { status := .processing, progress := some 80, message := "正在處理分離後的音軌..." }

/-- The terminal write of `separate_audio_local`'s `except` clause. -/
def salErrorW (e : String) : StatusWrite :=
  { status := .error, progress := some 0, message := "分離失敗: " ++ e,
    errMsg := some e }

/-- The status write one Demucs output line triggers in `read_stream`:
the parsed percentage is written directly as the job's progress. -/
def salLineWrite (line : List Char) : Option StatusWrite :=
  match parse_progress_line line with
  | some p => some { status := .separating, progress := some p,
                     message := "AI 音軌分離中... " ++ toString p ++ "%" }
  | none => none

/-- `s.endswith(suffix)` on filenames. -/
def strEndsWith (n : String) (suffix : String) : Bool :=
  startsWithL suffix.toList.reverse n.toList.reverse

/-- main.py stems-dir resolution: `htdemucs_6s/<audio stem>` when present,
else the parent of the first recursive `*.wav` hit. -/
def salStemsDir (i : SALIn) : Option (List String) :=
  if ["htdemucs_6s", i.audioStem] ∈ i.dirs then some ["htdemucs_6s", i.audioStem]
  else
    match (i.files.filter (fun e => strEndsWith e.2 ".wav")).head? with
    | some e => some e.1
    | none => none

/-- The tracks payload of `separate_audio_local`: the stems present in the
resolved directory, as static-file URLs. -/
def salTracks (i : SALIn) (d : List String) : List (String × String) :=
  stemNames.filterMap (fun s =>
    if (d, s ++ ".wav") ∈ i.files then
      some (s, "/files/separated/" ++ i.jobId ++ "/" ++ s ++ ".wav")
    else none)

def salCompletedW (i : SALIn) (d : List String) : StatusWrite :=
  { status := .completed, progress := some 100,
    message := "分離完成！已產生 " ++ toString (salTracks i d).length ++ " 個音軌",
    tracks := some (salTracks i d) }

/-- `separate_audio_local` of main.py as the ordered sequence of status
records it writes. -/
def separate_audio_local (i : SALIn) : List StatusWrite :=
  salLoadW :: salStartW ::
    (i.demucsLines.filterMap salLineWrite ++
      (if i.demucsRc ≠ 0 then
        [salErrorW ("分離失敗 (Exit Code: " ++ toString i.demucsRc
          ++ ") - 請查看後端日誌")]
      else
        salProcessingW ::
          (match salStemsDir i with
           | none => [salErrorW "找不到分離後的檔案"]
           | some d =>
             if salTracks i d = [] then [salErrorW "分離完成但找不到任何音軌"]
             else [salCompletedW i d])))

/-! #### `karaoke.process_karaoke_job` (backend-api/karaoke.py) -/

/-- How the karaoke job acquires its input video. -/
inductive KJSource where
  /-- a YouTube URL: return code and last stderr line of the yt-dlp run,
  and whether `input.mp4` exists afterwards -/
  | fromUrl : Int → String → Bool → KJSource
  /-- a local path: whether it resolves to an existing file -/
  | fromFile : Bool → KJSource

/-- Externally determined inputs of one `process_karaoke_job` execution.
Every subprocess here is started with `asyncio` and has no timeout. -/
structure KJIn where
  src : KJSource
  /-- `source_audio.wav` exists after the ffmpeg extract (the extract's
  exit code is never checked) -/
  extractOk : Bool
  /-- the logical lines of the merged Demucs output stream -/
  demucsLines : List (List Char)
  demucsRc : Int
  /-- directories under the job dir, relative component lists -/
  dirs : List (List String)
  /-- files under the job dir: (directory, filename), `rglob` order -/
  files : List (List String × String)
  /-- whether a given mp3 conversion leaves its output file -/
  convOk : String → Bool
  remuxRc : Int
  dateStr : String
  jobId : String

/-- The status write one Demucs output line triggers in the karaoke loop:
parse the line, map the percentage through the [30, 85] band with
`overall_prog`, and throttle to even overall percentages. -/
def karaokeLineWrite (line : List Char) : Option StatusWrite :=
  match parse_progress_line line with
  | some p =>
    if overall_prog p % 2 = 0 then
      some { status := .separating, progress := some (overall_prog p),
             message := "AI 去人聲運算中... " ++ toString p ++ "%" }
    else none
  | none => none

/-- karaoke.py output resolution (lines 253-266): the declared
`htdemucs_6s/source_audio` directory when it exists, else exactly one
fallback recursive search: the parent of the first `vocals.wav` hit. -/
def karaokeDemucsOut (j : KJIn) : Option (List String) :=
  if ["htdemucs_6s", "source_audio"] ∈ j.dirs then
    some ["htdemucs_6s", "source_audio"]
  else
    match (j.files.filter (fun e => e.2 == "vocals.wav")).head? with
    | some e => some e.1
    | none => none

/-- The five backing-track stems the karaoke mix uses (all but vocals). -/
def karaokeStems : List String := ["drums", "bass", "guitar", "piano", "other"]

/-- The stems of the resolved directory that exist on disk. -/
def karaokeValidStems (j : KJIn) (d : List String) : List String :=
  karaokeStems.filter (fun s => decide ((d, s ++ ".wav") ∈ j.files))

/-- The terminal write of `process_karaoke_job`'s `except` clause: status
`error` with the exception text, and no progress field. -/
def kjErrorW (e : String) : StatusWrite :=
  { status := .error, message := "處理失敗: " ++ e, errMsg := some e }

def kjDownloadW : StatusWrite :=
  { status := .downloading, progress := some 10, message := "下載影片中..." }

def kjReadFileW : StatusWrite :=
  { status := .processing, progress := some 10, message := "讀取影片中..." }

def kjPrepareW : StatusWrite :=
  { status := .separating, progress := some 30, message := "正在準備音訊..." }

def kjSepStartW : StatusWrite :=
  { status := .separating, progress := some 40,
    message := "AI 去人聲運算中 (這需要一點時間)..." }

def kjMixW : StatusWrite :=
  { status := .processing, progress := some 85, message := "正在合成伴奏..." }

def kjVocalsW : StatusWrite :=
  { status := .processing, progress := some 90, message := "正在處理人聲音軌..." }

def kjInstW : StatusWrite :=
  { status := .processing, progress := some 92, message := "正在最佳化伴奏音訊..." }

def kjRemuxW : StatusWrite :=
  { status := .processing, progress := some 95, message := "正在輸出最終影片..." }

/-- Static-file URL of one produced karaoke artifact. -/
def kjUrl (j : KJIn) (name : String) : String :=
  "/files/karaoke/" ++ j.dateStr ++ "/" ++ j.jobId ++ "/" ++ name

def kjCompletedW (j : KJIn) (d : List String) : StatusWrite :=
  { status := .completed, progress := some 100, message := "轉換完成！",
    tracks := some (
      [("file_url", kjUrl j "video.mp4")] ++
      (if (d, "vocals.wav") ∈ j.files ∧ j.convOk "vocals" = true then
        [("vocals_url", kjUrl j "vocals.mp3")] else []) ++
      (if j.convOk "instrumental" = true then
        [("instrumental_url", kjUrl j "instrumental.mp3")] else []) ++
      (karaokeValidStems j d).filterMap (fun s =>
        if j.convOk s = true then some (s, kjUrl j (s ++ ".mp3")) else none)) }

/-- The karaoke pipeline from audio preparation onward (shared by the
URL and local-file acquisition paths). -/
def karaokeRest (j : KJIn) : List StatusWrite :=
  kjPrepareW :: (
    if j.extractOk = false then [kjErrorW "音訊擷取失敗"]
    else
      kjSepStartW ::
        (j.demucsLines.filterMap karaokeLineWrite ++
          (if j.demucsRc ≠ 0 then
            [kjErrorW ("Demucs 分離失敗 (Exit Code: " ++ toString j.demucsRc ++ ")")]
           else
             match karaokeDemucsOut j with
             | none => [kjErrorW "找不到分離結果 (Files not found)"]
             | some d =>
               kjMixW :: (
                 if karaokeValidStems j d = [] then
                   [kjErrorW "沒有分離出任何背景音軌"]
                 else
                   (if (d, "vocals.wav") ∈ j.files then [kjVocalsW] else []) ++
                   kjInstW :: kjRemuxW :: (
                     if j.remuxRc ≠ 0 then [kjErrorW "最終合成失敗"]
                     else [kjCompletedW j d])))))

/-- `process_karaoke_job` of karaoke.py as the ordered sequence of status
records it writes. -/
def process_karaoke_job (j : KJIn) : List StatusWrite :=
  match j.src with
  | .fromUrl rc err okFile =>
    kjDownloadW :: (
      if rc ≠ 0 ∨ okFile = false then [kjErrorW ("下載失敗: " ++ err)]
      else karaokeRest j)
  | .fromFile resolved =>
    kjReadFileW :: (
      if resolved = false then [kjErrorW "找不到原始檔案"]
      else karaokeRest j)

/-! #### `main.download_youtube_audio` (backend-api/main.py) -/

/-- Externally determined inputs of one `download_youtube_audio`
execution. -/
structure DLIn where
  /-- outcome of the single `subprocess.run` of yt-dlp, `timeout=120` -/
  outcome : ProcOutcome
  /-- content of the `{job_id}.log` file re-read after the run -/
  logContent : String
  /-- `{job_id}.*` glob hits without `.log` files, in glob order -/
  foundFiles : List String
  jobId : String

/-- `run_sync_download`: the (returncode, note) pair the download thread
answers; `subprocess.TimeoutExpired` is caught there and turned into
`(-1, "Download timed out")` — the process is killed by `subprocess.run`
and the synthetic return code -1 makes the caller treat the stage as
failed. -/
def run_sync_download (o : ProcOutcome) : Int × String :=
  match o with
  | .exited rc _ => (rc, "")
  | .timedOut => (-1, "Download timed out")

/-- Python `s[-300:]`. -/
def pyLast300 (s : String) : String :=
  ⟨s.toList.drop (s.toList.length - 300)⟩

/-- `Path(...).suffix.lower()`: the final extension with its dot,
lowercased, or the empty string. -/
def extOf (n : String) : String :=
  if n.toList.contains '.' then
    ⟨('.' :: (n.toList.reverse.takeWhile (fun c => c != '.')).reverse).map
      Char.toLower⟩
  else ""

def dlConnectW : StatusWrite :=
  { status := .downloading, progress := some 10, message := "正在連接 YouTube..." }

def dlConvertW : StatusWrite :=
  { status := .downloading, progress := some 30,
    message := "正在下載並轉換為音訊..." }

/-- The terminal write of `download_youtube_audio`'s `except` clause. -/
def dlErrorW (e : String) : StatusWrite :=
  { status := .error, progress := some 0, message := "下載失敗: " ++ e,
    errMsg := some e }

/-- `download_youtube_audio` of main.py as the ordered sequence of status
records it writes.  On a non-zero (or timeout's synthetic -1) return code
the raised exception's text is built from the re-read log file. -/
def download_youtube_audio (i : DLIn) : List StatusWrite :=
  dlConnectW :: dlConvertW :: (
    if (run_sync_download i.outcome).1 ≠ 0 then
      if containsSub ("Sign in".toList) i.logContent.toList then
        [dlErrorW "YouTube 要求驗證 (Bot Detection)。請稍後再試。"]
      else [dlErrorW ("下載失敗: " ++ pyLast300 i.logContent)]
    else
      match i.foundFiles with
      | f :: _ =>
        [{ status := .completed, progress := some 100, message := "下載完成！",
           tracks := some [("file_url",
             "/files/downloads/" ++ i.jobId ++ extOf f)] }]
      | [] => [dlErrorW "下載似乎成功但找不到檔案"])

/-! #### The external-process invocation sites -/

/-- One external-process invocation site of the source: its location, the
tool it runs, whether it uses blocking `subprocess.run` (as opposed to
`asyncio.create_subprocess_exec`), and its wall-clock timeout, if any. -/
structure Invocation where
  site : String
  tool : String
  viaSubprocessRun : Bool
  timeoutSecs : Option Nat
deriving DecidableEq

/-- Every external-process invocation of the pipelines, read off the
source: main.py, karaoke.py and tasks.py. -/
def invocations : List Invocation :=
  [ { site := "main.download_youtube_audio/run_sync_download", tool := "yt-dlp",
      viaSubprocessRun := true, timeoutSecs := some 120 },
    { site := "main.separate_audio_local", tool := "demucs",
      viaSubprocessRun := false, timeoutSecs := none },
    { site := "karaoke.process_karaoke_job/title", tool := "yt-dlp",
      viaSubprocessRun := false, timeoutSecs := none },
    { site := "karaoke.process_karaoke_job/download", tool := "yt-dlp",
      viaSubprocessRun := false, timeoutSecs := none },
    { site := "karaoke.process_karaoke_job/extract", tool := "ffmpeg",
      viaSubprocessRun := false, timeoutSecs := none },
    { site := "karaoke.process_karaoke_job/separate", tool := "demucs",
      viaSubprocessRun := false, timeoutSecs := none },
    { site := "karaoke.process_karaoke_job/mix", tool := "ffmpeg",
      viaSubprocessRun := false, timeoutSecs := none },
    { site := "karaoke.process_karaoke_job/convert_to_mp3", tool := "ffmpeg",
      viaSubprocessRun := false, timeoutSecs := none },
    { site := "karaoke.process_karaoke_job/remux", tool := "ffmpeg",
      viaSubprocessRun := false, timeoutSecs := none },
    { site := "tasks.separate_music/download", tool := "yt-dlp",
      viaSubprocessRun := true, timeoutSecs := some 300 },
    { site := "tasks.separate_music/download-cookies", tool := "yt-dlp",
      viaSubprocessRun := true, timeoutSecs := some 300 },
    { site := "tasks.separate_music/separate", tool := "demucs",
      viaSubprocessRun := true, timeoutSecs := some 600 },
    { site := "tasks.mix_tracks/mix", tool := "ffmpeg",
      viaSubprocessRun := true, timeoutSecs := some 120 } ]

/-! ### C1: exactly one terminal write, always last -/

theorem karaokeLineWrite_nonterminal (ls : List (List Char)) :
    ∀ w ∈ ls.filterMap karaokeLineWrite, isTerminalW w = false := by
  intro w hw
  obtain ⟨l, -, he⟩ := List.mem_filterMap.mp hw
  unfold karaokeLineWrite at he
  split at he
  · split at he
    · injection he with he
      rw [← he]
      rfl
    · exact absurd he (by simp)
  · exact absurd he (by simp)

theorem karaokeRest_terminal (j : KJIn) :
    endsTerminalOnceB (karaokeRest j) = true := by
  unfold karaokeRest
  refine endsTerminalOnceB_cons _ _ rfl ?_
  split
  · rfl
  · refine endsTerminalOnceB_cons _ _ rfl ?_
    refine endsTerminalOnceB_append _ _
      (karaokeLineWrite_nonterminal j.demucsLines) ?_
    split
    · rfl
    · split
      · rfl
      · refine endsTerminalOnceB_cons _ _ rfl ?_
        split
        · rfl
        · split
          · rw [List.singleton_append]
            refine endsTerminalOnceB_cons _ _ rfl ?_
            refine endsTerminalOnceB_cons _ _ rfl ?_
            refine endsTerminalOnceB_cons _ _ rfl ?_
            split
            · rfl
            · rfl
          · rw [List.nil_append]
            refine endsTerminalOnceB_cons _ _ rfl ?_
            refine endsTerminalOnceB_cons _ _ rfl ?_
            split
            · rfl
            · rfl

/-- C1: in every execution of the worker separation pipeline
(`separate_music`) and of the karaoke pipeline (`process_karaoke_job`),
exactly one terminal status (`completed` or `error`) is written to the
job status store, it is the very last write of the job, and no status
update of any kind follows it. -/
theorem c1_single_terminal_write :
    (∀ i : SMIn, endsTerminalOnce (separate_music i)) ∧
    (∀ j : KJIn, endsTerminalOnce (process_karaoke_job j)) := by
  constructor
  · intro i
    rw [endsTerminalOnce_iff]
    unfold separate_music
    split
    · rfl
    · split
      · rfl
      · split
        · rfl
        · split
          · rfl
          · split
            · rfl
            · split
              · rfl
              · rfl
  · intro j
    rw [endsTerminalOnce_iff]
    unfold process_karaoke_job
    split
    · split
      · rfl
      · exact endsTerminalOnceB_cons _ _ rfl (karaokeRest_terminal j)
    · split
      · rfl
      · exact endsTerminalOnceB_cons _ _ rfl (karaokeRest_terminal j)

/-! ### C2: progress monotonicity -/

/-- A concrete, otherwise entirely successful `separate_audio_local`
execution: Demucs exits 0 with no parsed progress lines and leaves its
output in the declared directory. -/
def salExample : SALIn :=
  { demucsLines := [], demucsRc := 0,
    dirs := [["htdemucs_6s", "audio"]],
    files := [(["htdemucs_6s", "audio"], "vocals.wav")],
    audioStem := "audio", jobId := "j0" }

/-- C2 counterexample: `separate_audio_local` writes progress 10 (loading
the model) and then resets progress to 0 (starting the engine) while the
job is still running — two non-terminal writes with decreasing progress,
long before any terminal state, and not at job creation. -/
theorem c2_counterexample_progress_decreases :
    separate_audio_local salExample
        = [salLoadW, salStartW, salProcessingW,
           salCompletedW salExample ["htdemucs_6s", "audio"]] ∧
    salLoadW.progress = some 10 ∧ salStartW.progress = some 0 ∧
    ¬ nonDecreasingUntilTerminal (separate_audio_local salExample) := by
  refine ⟨by decide, rfl, rfl, ?_⟩
  unfold nonDecreasingUntilTerminal
  decide

/-- C2 amended: the worker pipeline `separate_music` does write a
non-decreasing progress sequence up to its terminal write (10, 30, 80,
then 100 on completion); but `separate_audio_local` violates the claim:
it resets progress from 10 to 0 when launching the engine, and afterwards
echoes whatever percentages it parses from the tool's output. -/
theorem c2_amended_worker_monotone :
    ∀ i : SMIn, nonDecreasingUntilTerminal (separate_music i) := by
  intro i
  unfold nonDecreasingUntilTerminal separate_music
  split
  · rfl
  · split
    · rfl
    · split
      · rfl
      · split
        · rfl
        · split
          · rfl
          · split
            · rfl
            · rfl

/-! ### C7: external-process timeouts -/

/-- C7 counterexample: the Demucs invocation of `separate_audio_local` —
one of the very code sites the claim cites — is started with asyncio and
has no wall-clock timeout at all, so not every stage's external process
is bound to a hard timeout. -/
theorem c7_counterexample_no_timeout :
    ({ site := "main.separate_audio_local", tool := "demucs",
       viaSubprocessRun := false, timeoutSecs := none } : Invocation)
        ∈ invocations ∧
    ¬ (∀ inv ∈ invocations, inv.timeoutSecs.isSome = true) := by
  constructor
  · decide
  · decide

/-- C7 amended: only the blocking `subprocess.run` invocations carry hard
wall-clock timeouts (download 120 s in main.py; 300 s / 600 s / 120 s in
the worker); the asyncio invocations (Demucs in `separate_audio_local`
and every karaoke stage) have none.  For the timed-out download,
`subprocess.run` kills the process, `run_sync_download` answers the
synthetic return code -1, and the pipeline ends in a single terminal
`error` write built from the diagnostic log captured so far. -/
theorem c7_amended_subprocess_timeouts :
    (∀ inv ∈ invocations, inv.viaSubprocessRun = true →
      inv.timeoutSecs.isSome = true) ∧
    (∀ (log : String) (files : List String) (jid : String),
      ∃ e, (download_youtube_audio
          { outcome := ProcOutcome.timedOut, logContent := log,
            foundFiles := files, jobId := jid }).getLast?
        = some (dlErrorW e)) := by
  constructor
  · decide
  · intro log files jid
    by_cases hs : containsSub ("Sign in".toList) log.toList = true
    · refine ⟨"YouTube 要求驗證 (Bot Detection)。請稍後再試。", ?_⟩
      simp only [String.toList] at hs
      simp [download_youtube_audio, run_sync_download, hs]
    · refine ⟨"下載失敗: " ++ pyLast300 log, ?_⟩
      simp only [String.toList] at hs
      simp [download_youtube_audio, run_sync_download, hs]

/-- Witness for C7 amended: the worker's Demucs invocation does carry a
timeout, and a concrete timed-out download ends in an error write. -/
theorem c7_amended_witness :
    ({ site := "tasks.separate_music/separate", tool := "demucs",
       viaSubprocessRun := true, timeoutSecs := some 600 }
        : Invocation).timeoutSecs.isSome = true ∧
    ∃ e, (download_youtube_audio
        { outcome := ProcOutcome.timedOut, logContent := "WARNING: partial",
          foundFiles := [], jobId := "j9" }).getLast? = some (dlErrorW e) :=
  ⟨c7_amended_subprocess_timeouts.1 _ (by decide) rfl,
   c7_amended_subprocess_timeouts.2 "WARNING: partial" [] "j9"⟩

/-! ### C8: fallback output search -/

/-- C8: in `separate_music`, after both the download and the Demucs run
exit successfully, if the declared `htdemucs_6s/<audio stem>` output
directory is absent then exactly one fallback recursive search for
`vocals.wav` runs; when it hits, the resolution yields the hit's parent
directory and the job completes with the tracks payload (including the
vocals reference) resolved from that directory. -/
theorem c8_fallback_search_completes
    (i : SMIn) (aname err derr : String) (e : List String × String)
    (h1 : dlResult i.dl1 i.dl2 = ProcOutcome.exited 0 err)
    (h2 : audioFileName i = some aname)
    (h3 : i.demucs = ProcOutcome.exited 0 derr)
    (h4 : ["htdemucs_6s", stemOf aname] ∉ i.dirs)
    (h5 : (i.files.filter (fun x => x.2 == "vocals.wav")).head? = some e) :
    resolveStemDir i (stemOf aname) = some e.1 ∧
    separate_music i
        = [smDownloadingW, smSeparatingW, smUploadingW, smCompletedW i e.1] ∧
    ∃ tr, (smCompletedW i e.1).tracks = some tr ∧
      ("vocals", gcsUrl (smStemUrl i "vocals")) ∈ tr := by
  have hres : resolveStemDir i (stemOf aname) = some e.1 := by
    unfold resolveStemDir
    rw [if_neg h4, h5]
  have hmem : (e.1, "vocals.wav") ∈ i.files := by
    cases hf : i.files.filter (fun x => x.2 == "vocals.wav") with
    | nil => rw [hf] at h5; exact absurd h5 (by simp)
    | cons x xs =>
      rw [hf] at h5
      simp only [List.head?_cons, Option.some.injEq] at h5
      have hxmem : e ∈ i.files.filter (fun x => x.2 == "vocals.wav") := by
        rw [hf, ← h5]
        exact List.mem_cons_self x xs
      obtain ⟨hin, hsnd⟩ := List.mem_filter.mp hxmem
      have hsnd' : e.2 = "vocals.wav" := by simpa using hsnd
      have hpair : (e.1, "vocals.wav") = e := by
        rw [← hsnd']
      rw [hpair]
      exact hin
  have htr : ("vocals", gcsUrl (smStemUrl i "vocals")) ∈ smTracks i e.1 := by
    simp only [smTracks]
    have hbase : ("vocals", gcsUrl (smStemUrl i "vocals")) ∈
        stemNames.filterMap (fun s =>
          if (e.1, s ++ ".wav") ∈ i.files then some (s, gcsUrl (smStemUrl i s))
          else none) := by
      apply List.mem_filterMap.mpr
      refine ⟨"vocals", by decide, ?_⟩
      rw [show ("vocals" : String) ++ ".wav" = "vocals.wav" from rfl,
        if_pos hmem]
    by_cases hacc : ((e.1, "no_vocals.wav") ∈ i.files ∧
        (stemNames.filterMap (fun s =>
          if (e.1, s ++ ".wav") ∈ i.files then some (s, gcsUrl (smStemUrl i s))
          else none)).lookup "drums" = none)
    · rw [if_pos hacc]
      exact List.mem_append_left _ (List.mem_append_left _ hbase)
    · rw [if_neg hacc]
      exact List.mem_append_left _ hbase
  have htrace : separate_music i
      = [smDownloadingW, smSeparatingW, smUploadingW, smCompletedW i e.1] := by
    unfold separate_music
    rw [h1, h2, h3]
    show smDownloadingW :: smSeparatingW :: smUploadingW ::
        (match resolveStemDir i (stemOf aname) with
         | none => [smErrorW "找不到分離後的檔案"]
         | some d => [smCompletedW i d]) = _
    rw [hres]
  exact ⟨hres, htrace, smTracks i e.1, rfl, htr⟩

/-- A concrete `separate_music` run whose Demucs output landed in an
unexpected subdirectory, found only by the fallback search. -/
def smExample : SMIn :=
  { dl1 := ProcOutcome.exited 0 "", dl2 := ProcOutcome.exited 0 "",
    mp3Files := ["audio.mp3"], audioFiles := [],
    demucs := ProcOutcome.exited 0 "",
    dirs := [],
    files := [(["htdemucs_6s", "unexpected"], "vocals.wav"),
              (["htdemucs_6s", "unexpected"], "drums.wav")],
    jobId := "jx" }

/-- Witness for C8 at the concrete run `smExample`. -/
theorem c8_witness :
    resolveStemDir smExample (stemOf "audio.mp3")
        = some ["htdemucs_6s", "unexpected"] ∧
    separate_music smExample
        = [smDownloadingW, smSeparatingW, smUploadingW,
           smCompletedW smExample ["htdemucs_6s", "unexpected"]] ∧
    ∃ tr, (smCompletedW smExample ["htdemucs_6s", "unexpected"]).tracks
          = some tr ∧
      ("vocals", gcsUrl (smStemUrl smExample "vocals")) ∈ tr :=
  c8_fallback_search_completes smExample "audio.mp3" "" ""
    (["htdemucs_6s", "unexpected"], "vocals.wav") rfl rfl rfl
    (by decide) (by decide)

end VocalTune
